import Mathlib

/-!
Shallow embedding of the generate→assess→refine flashcard loop from
`src/flashcard-generator.py` (`SimplifiedFlashcardSystem.create_flashcards`,
lines 704-880), together with its quality model (the per-card weighted score
at lines 843-857 and the critical-factor floor check at lines 774-788) and
the card materializer (lines 832-870).

Modelling choices:
* Python floats become exact rationals (`ℚ`); Python dicts of factor scores
  become association lists with a `get`-with-default lookup (`fget`).
* The three Azure OpenAI calls per iteration are external; their *parsed*
  outcomes are scripted by an oracle `ℕ → IterOracle` giving, for each
  iteration index, whether generation / assessment / refinement JSON parsing
  succeeds and with what structured payload.  The loop itself is
  deterministic given those outcomes, so every reachable run of the Python
  loop corresponds to some oracle.
* `json.JSONDecodeError` on a stage is the `fail` constructor of that
  stage's result type; `dict.get(k, default)` is modelled by the
  corresponding default.
-/

namespace FlashcardGen

/-- One candidate card as parsed from a generation/refinement response
(`card_data` in the Python source); absent fields fall back to the defaults
used by `card_data.get(...)` at materialization time. -/
structure Card where
  question : String
  answer : String
  concept : String
  difficulty : Option String
  quality_factors : List (String × ℚ)
deriving Repr, DecidableEq

/-- The parsed JSON object of a generation or refinement response; the code
only ever reads its `flashcards` list (`flashcard_data.get('flashcards', [])`). -/
structure GenData where
  flashcards : List Card
deriving Repr, DecidableEq

/-- One entry of the assessment's `assessments` list. -/
structure CardAssessment where
  card_index : ℕ
  quality_factors : List (String × ℚ)
  weighted_score : ℚ
deriving Repr, DecidableEq

/-- The parsed assessment response: `overall_score`, `critical_issues`,
per-card `assessments`, and `improvement_priorities` (defaults 0, 0, [], []
via `assessment.get`). -/
structure Assessment where
  overall_score : ℚ
  critical_issues : ℤ
  assessments : List CardAssessment
  improvement_priorities : List String
deriving Repr, DecidableEq

/-- Outcome of parsing a generation response (`json.loads` at line 720):
either `JSONDecodeError` or a structured payload. -/
inductive GenResult where
  | fail : GenResult
  | ok : GenData → GenResult
deriving Repr, DecidableEq

/-- Outcome of parsing an assessment response (`json.loads` at line 736). -/
inductive AssessResult where
  | fail : AssessResult
  | ok : Assessment → AssessResult
deriving Repr, DecidableEq

/-- Outcome of parsing a refinement response (`json.loads` at line 805). -/
inductive RefineResult where
  | fail : RefineResult
  | ok : GenData → RefineResult
deriving Repr, DecidableEq

/-- The scripted external-service outcomes for one loop iteration. -/
structure IterOracle where
  gen : GenResult
  assess : AssessResult
  refine : RefineResult
deriving Repr, DecidableEq

/-- Python `factors.get(key, 0)` on a factor dict. -/
def fget (m : List (String × ℚ)) (k : String) : ℚ :=
  match m.find? (fun p => p.1 == k) with
  | some p => p.2
  | none => 0

/-- The weight table of lines 843-854: ten fixed factor names with the
weights used to compute `card_quality`. -/
def weights : List (String × ℚ) :=
  [("conceptual_atomicity", 15/100),
   ("conciseness", 15/100),
   ("standalone_context", 1/10),
   ("requires_specific_answer", 1/10),
   ("no_hints", 1/10),
   ("technical_precision", 1/10),
   ("practical_value", 1/10),
   ("bidirectional_design", 1/10),
   ("uniqueness", 5/100),
   ("design_rationale", 5/100)]

/-- Line 856-857: `sum(quality_factors.get(factor, 0) * weight for factor,
weight in weights.items()) * 10`. -/
def cardQuality (factors : List (String × ℚ)) : ℚ :=
  ((weights.map (fun fw => fget factors fw.1 * fw.2)).sum) * 10

/-- The critical-factor floor check of lines 780-788: a card passes iff
`conceptual_atomicity ≥ 0.9`, `conciseness ≥ 0.8`, `standalone_context ≥ 0.9`
and `no_hints ≥ 0.9`, each read with `factors.get(k, 0)`. -/
def meetsFloor (factors : List (String × ℚ)) : Bool :=
  !(decide (fget factors "conceptual_atomicity" < 9/10) ||
    decide (fget factors "conciseness" < 8/10) ||
    decide (fget factors "standalone_context" < 9/10) ||
    decide (fget factors "no_hints" < 9/10))

/-- `quality_criteria_met` after the loop of lines 780-788: every entry of
the assessment's `assessments` list passes the floor check. -/
def allFloorsMet (a : Assessment) : Bool :=
  a.assessments.all (fun ca => meetsFloor ca.quality_factors)

/-- The convergence test of line 790: `overall_score >= quality_threshold
and critical_issues == 0 and quality_criteria_met`. -/
abbrev convergedCond (qt : ℚ) (a : Assessment) : Prop :=
  qt ≤ a.overall_score ∧ a.critical_issues = 0 ∧ allFloorsMet a = true

/-- Mutable loop state threaded through the `for iteration in range(...)`
loop, plus call counters for the three service stages (one per actual call
site reached) and the number of loop-body entries. -/
structure LoopState where
  feedback : String
  flashcard_data : Option GenData
  overall_score : ℚ
  genCalls : ℕ
  assessCalls : ℕ
  refineCalls : ℕ
  iterationsRun : ℕ
deriving Repr, DecidableEq

/-- How the loop stopped: the convergence `break` at line 792, the
refinement-parse-failure `break` at line 830, or falling off the end of
`range(max_iterations)`. -/
inductive ExitKind where
  | converged : ExitKind
  | refineFail : ExitKind
  | budget : ExitKind
deriving Repr, DecidableEq

/-- Line 705: the initial feedback string. -/
def initialFeedback : String :=
  "Initial creation - focus on high-quality, concise flashcards."

/-- Line 826: the generic fallback feedback when the assessment has no
improvement priorities. -/
def fallbackFeedback : String :=
  "Continue improving quality with focus on technical precision and bidirectional design."

/-- Lines 705-708: state before the first iteration. -/
def initState : LoopState :=
  { feedback := initialFeedback
    flashcard_data := none
    overall_score := 0
    genCalls := 0
    assessCalls := 0
    refineCalls := 0
    iterationsRun := 0 }

/-- Lines 822-826: the feedback for the next iteration after a successful
refinement: `"Focus on: " + "; ".join(priorities[:2])` when priorities is a
non-empty list, else the generic fallback. -/
def nextFeedback (a : Assessment) : String :=
  if a.improvement_priorities.isEmpty then fallbackFeedback
  else "Focus on: " ++ String.intercalate "; " (a.improvement_priorities.take 2)

/-- One pass through the loop body (lines 715-830) given the scripted
outcomes `o` of this iteration's service calls.  Returns the updated state
and `some exit` if the body executed a `break`, `none` if control reaches
the next iteration (end of body or a `continue`). -/
def iterBody (qt : ℚ) (o : IterOracle) (s : LoopState) : LoopState × Option ExitKind :=
  let s1 := { s with genCalls := s.genCalls + 1 }
  match o.gen with
  | GenResult.fail => (s1, none)
  | GenResult.ok gd =>
    let s2 := { s1 with flashcard_data := some gd }
    if gd.flashcards.isEmpty then (s2, none)
    else
      let s3 := { s2 with assessCalls := s2.assessCalls + 1 }
      match o.assess with
      | AssessResult.fail => (s3, none)
      | AssessResult.ok a =>
        let s4 := { s3 with overall_score := a.overall_score }
        if convergedCond qt a then (s4, some ExitKind.converged)
        else
          let s5 := { s4 with refineCalls := s4.refineCalls + 1 }
          match o.refine with
          | RefineResult.fail => (s5, some ExitKind.refineFail)
          | RefineResult.ok rd =>
            ({ s5 with flashcard_data := some rd, feedback := nextFeedback a }, none)

/-- The `for iteration in range(max_iterations)` driver: `n` iterations of
budget remain, `i` is the current iteration index. -/
def runLoopAux (qt : ℚ) (oracle : ℕ → IterOracle) : ℕ → ℕ → LoopState → LoopState × ExitKind
  | 0, _, s => (s, ExitKind.budget)
  | n + 1, i, s =>
    match iterBody qt (oracle i) { s with iterationsRun := s.iterationsRun + 1 } with
    | (s1, some ek) => (s1, ek)
    | (s1, none) => runLoopAux qt oracle n (i + 1) s1

/-- The whole refinement loop of lines 712-830. -/
def runLoop (qt : ℚ) (maxIter : ℕ) (oracle : ℕ → IterOracle) : LoopState × ExitKind :=
  runLoopAux qt oracle maxIter 0 initState

/-- One final flashcard record (`QAFlashcard` dataclass, lines 40-49). -/
structure QAFlashcard where
  question : String
  answer : String
  topic : String
  difficulty : String
  quality_score : ℚ
  concept : String
  id : String
deriving Repr, DecidableEq

/-- Line 868: `topic.lower().replace(' ', '_')`, modelled characterwise:
lower-case every character, then replace each space by an underscore. -/
def slugify (topic : String) : String :=
  String.mk ((topic.data.map Char.toLower).map (fun c => if c = ' ' then '_' else c))

/-- Python format `{n:03d}` for a natural number: zero-pad to width 3. -/
def pad3 (n : ℕ) : String :=
  let s := toString n
  if s.length < 3 then String.mk (List.replicate (3 - s.length) '0') ++ s else s

/-- Lines 837-870: build the `QAFlashcard` for the candidate at 0-based
index `i`: weighted quality when the card has a non-empty factor dict, else
the loop's last `overall_score`; id `<slug>_<i+1 zero-padded to 3>`. -/
def mkFlashcard (topic defaultDifficulty : String) (overall : ℚ) (i : ℕ) (c : Card) :
    QAFlashcard :=
  { question := c.question
    answer := c.answer
    topic := topic
    difficulty := c.difficulty.getD defaultDifficulty
    quality_score := if c.quality_factors.isEmpty then overall else cardQuality c.quality_factors
    concept := c.concept
    id := slugify topic ++ "_" ++ pad3 (i + 1) }

/-- The `for i, card_data in enumerate(cards_data)` loop of lines 837-870. -/
def materializeAux (topic defaultDifficulty : String) (overall : ℚ) :
    ℕ → List Card → List QAFlashcard
  | _, [] => []
  | i, c :: rest =>
    mkFlashcard topic defaultDifficulty overall i c ::
      materializeAux topic defaultDifficulty overall (i + 1) rest

/-- Lines 832-870: `final_cards` is empty when `flashcard_data` is still
`None`, else one record per entry of its `flashcards` list, in order. -/
def materialize (topic defaultDifficulty : String) (overall : ℚ) :
    Option GenData → List QAFlashcard
  | none => []
  | some gd => materializeAux topic defaultDifficulty overall 0 gd.flashcards

/-- The end-to-end modelled behaviour of `create_flashcards` after content
acquisition: run the refinement loop, then materialize the last candidate
list with the last recorded `overall_score`. -/
def createFlashcards (topic defaultDifficulty : String) (qt : ℚ) (maxIter : ℕ)
    (oracle : ℕ → IterOracle) : List QAFlashcard :=
  materialize topic defaultDifficulty (runLoop qt maxIter oracle).1.overall_score
    (runLoop qt maxIter oracle).1.flashcard_data

/-! ## Characterization lemmas for one loop-body pass -/

/-- Generation parse failure (line 727-729): only the generate-call counter
moves and the body falls through to the next iteration. -/
theorem iterBody_gen_fail (qt : ℚ) (o : IterOracle) (s : LoopState)
    (h : o.gen = GenResult.fail) :
    iterBody qt o s = ({ s with genCalls := s.genCalls + 1 }, none) := by
  rcases o with ⟨g, ab, rb⟩
  cases g with
  | fail => rfl
  | ok gd => exact absurd h (by simp)

/-- Generation parses to an empty candidate list (lines 721-725): the parsed
data still replaces `flashcard_data`, then the body `continue`s. -/
theorem iterBody_gen_empty (qt : ℚ) (o : IterOracle) (s : LoopState) (gd : GenData)
    (h : o.gen = GenResult.ok gd) (he : gd.flashcards = []) :
    iterBody qt o s =
      ({ s with genCalls := s.genCalls + 1, flashcard_data := some gd }, none) := by
  rcases o with ⟨g, ab, rb⟩
  cases g with
  | fail => exact absurd h (by simp)
  | ok gd' =>
    obtain rfl : gd' = gd := by simpa using h
    simp [iterBody, he]

/-- Assessment parse failure (lines 794-796): generate and assess counters
move, `flashcard_data` holds the freshly generated list, and the body
`continue`s with feedback unchanged. -/
theorem iterBody_assess_fail (qt : ℚ) (o : IterOracle) (s : LoopState) (gd : GenData)
    (h : o.gen = GenResult.ok gd) (hne : gd.flashcards ≠ [])
    (ha : o.assess = AssessResult.fail) :
    iterBody qt o s =
      ({ s with
          genCalls := s.genCalls + 1,
          flashcard_data := some gd,
          assessCalls := s.assessCalls + 1 }, none) := by
  rcases o with ⟨g, ab, rb⟩
  have hg : g = GenResult.ok gd := h
  have ha' : ab = AssessResult.fail := ha
  subst hg
  subst ha'
  simp [iterBody, hne]

/-- The convergence `break` of lines 790-792: assessment parsed and all
three conditions hold. -/
theorem iterBody_converged (qt : ℚ) (o : IterOracle) (s : LoopState)
    (gd : GenData) (a : Assessment)
    (h : o.gen = GenResult.ok gd) (hne : gd.flashcards ≠ [])
    (ha : o.assess = AssessResult.ok a) (hc : convergedCond qt a) :
    iterBody qt o s =
      ({ s with
          genCalls := s.genCalls + 1,
          flashcard_data := some gd,
          assessCalls := s.assessCalls + 1,
          overall_score := a.overall_score },
        some ExitKind.converged) := by
  rcases o with ⟨g, ab, rb⟩
  have hg : g = GenResult.ok gd := h
  have ha' : ab = AssessResult.ok a := ha
  subst hg
  subst ha'
  simp [iterBody, hne, hc]

/-- The refinement-parse-failure `break` of lines 828-830: the candidate
list is left as the (un-refined) generated list and the loop stops. -/
theorem iterBody_refine_fail (qt : ℚ) (o : IterOracle) (s : LoopState)
    (gd : GenData) (a : Assessment)
    (h : o.gen = GenResult.ok gd) (hne : gd.flashcards ≠ [])
    (ha : o.assess = AssessResult.ok a) (hnc : ¬ convergedCond qt a)
    (hr : o.refine = RefineResult.fail) :
    iterBody qt o s =
      ({ s with
          genCalls := s.genCalls + 1,
          flashcard_data := some gd,
          assessCalls := s.assessCalls + 1,
          overall_score := a.overall_score,
          refineCalls := s.refineCalls + 1 },
        some ExitKind.refineFail) := by
  rcases o with ⟨g, ab, rb⟩
  have hg : g = GenResult.ok gd := h
  have ha' : ab = AssessResult.ok a := ha
  have hr' : rb = RefineResult.fail := hr
  subst hg
  subst ha'
  subst hr'
  simp [iterBody, hne, hnc]

/-- Successful refinement (lines 804-826): the refined list replaces the
candidate list and the feedback becomes `nextFeedback a`; the body falls
through to the next iteration. -/
theorem iterBody_refine_ok (qt : ℚ) (o : IterOracle) (s : LoopState)
    (gd rd : GenData) (a : Assessment)
    (h : o.gen = GenResult.ok gd) (hne : gd.flashcards ≠ [])
    (ha : o.assess = AssessResult.ok a) (hnc : ¬ convergedCond qt a)
    (hr : o.refine = RefineResult.ok rd) :
    iterBody qt o s =
      ({ s with
          genCalls := s.genCalls + 1,
          flashcard_data := some rd,
          assessCalls := s.assessCalls + 1,
          overall_score := a.overall_score,
          refineCalls := s.refineCalls + 1,
          feedback := nextFeedback a },
        none) := by
  rcases o with ⟨g, ab, rb⟩
  have hg : g = GenResult.ok gd := h
  have ha' : ab = AssessResult.ok a := ha
  have hr' : rb = RefineResult.ok rd := hr
  subst hg
  subst ha'
  subst hr'
  simp [iterBody, hne, hnc]

/-- Each body pass makes exactly one generate call and leaves the
body-external iteration counter alone. -/
theorem iterBody_genCalls (qt : ℚ) (o : IterOracle) (s : LoopState) :
    (iterBody qt o s).1.genCalls = s.genCalls + 1 ∧
    (iterBody qt o s).1.iterationsRun = s.iterationsRun := by
  cases hg : o.gen with
  | fail => rw [iterBody_gen_fail qt o s hg]; exact ⟨rfl, rfl⟩
  | ok gd =>
    cases hl : gd.flashcards with
    | nil => rw [iterBody_gen_empty qt o s gd hg hl]; exact ⟨rfl, rfl⟩
    | cons c cs =>
      have hne : gd.flashcards ≠ [] := by rw [hl]; exact List.cons_ne_nil c cs
      cases ha : o.assess with
      | fail => rw [iterBody_assess_fail qt o s gd hg hne ha]; exact ⟨rfl, rfl⟩
      | ok a =>
        by_cases hc : convergedCond qt a
        · rw [iterBody_converged qt o s gd a hg hne ha hc]; exact ⟨rfl, rfl⟩
        · cases hr : o.refine with
          | fail => rw [iterBody_refine_fail qt o s gd a hg hne ha hc hr]; exact ⟨rfl, rfl⟩
          | ok rd => rw [iterBody_refine_ok qt o s gd rd a hg hne ha hc hr]; exact ⟨rfl, rfl⟩

/-- Unfolding one driver step. -/
theorem runLoopAux_succ (qt : ℚ) (oracle : ℕ → IterOracle) (n i : ℕ) (s : LoopState) :
    runLoopAux qt oracle (n + 1) i s =
      match iterBody qt (oracle i) { s with iterationsRun := s.iterationsRun + 1 } with
      | (s1, some ek) => (s1, ek)
      | (s1, none) => runLoopAux qt oracle n (i + 1) s1 := rfl

/-- Counter bound: over a budget of `n` remaining iterations, at most `n`
further generate calls and body entries happen. -/
theorem runLoopAux_counts (qt : ℚ) (oracle : ℕ → IterOracle) :
    ∀ (n i : ℕ) (s : LoopState),
      (runLoopAux qt oracle n i s).1.genCalls ≤ s.genCalls + n ∧
      (runLoopAux qt oracle n i s).1.iterationsRun ≤ s.iterationsRun + n := by
  intro n
  induction n with
  | zero => intro i s; exact ⟨Nat.le_refl _, Nat.le_refl _⟩
  | succ n ih =>
    intro i s
    rcases hb : iterBody qt (oracle i) { s with iterationsRun := s.iterationsRun + 1 }
      with ⟨s1, ek⟩
    have hcount := iterBody_genCalls qt (oracle i) { s with iterationsRun := s.iterationsRun + 1 }
    rw [hb] at hcount
    obtain ⟨hc1, hc2⟩ := hcount
    rw [runLoopAux_succ, hb]
    dsimp only at hc1 hc2
    cases ek with
    | some e =>
      dsimp only
      exact ⟨by omega, by omega⟩
    | none =>
      obtain ⟨h1, h2⟩ := ih (i + 1) s1
      dsimp only
      exact ⟨by omega, by omega⟩

/-- Auxiliary invariant for the all-generations-fail scenario: if every
remaining iteration's generation parse fails, the loop runs out its budget
without touching `flashcard_data` or `overall_score`. -/
theorem runLoopAux_gen_fail_all (qt : ℚ) (oracle : ℕ → IterOracle) :
    ∀ (n i : ℕ) (s : LoopState),
      (∀ j, j < n → (oracle (i + j)).gen = GenResult.fail) →
      (runLoopAux qt oracle n i s).1.flashcard_data = s.flashcard_data ∧
      (runLoopAux qt oracle n i s).1.overall_score = s.overall_score ∧
      (runLoopAux qt oracle n i s).2 = ExitKind.budget := by
  intro n
  induction n with
  | zero => intro i s _; exact ⟨rfl, rfl, rfl⟩
  | succ n ih =>
    intro i s hall
    have h0 : (oracle i).gen = GenResult.fail := by
      have := hall 0 (Nat.succ_pos n)
      simpa using this
    have hall' : ∀ j, j < n → (oracle (i + 1 + j)).gen = GenResult.fail := by
      intro j hj
      have := hall (j + 1) (by omega)
      have e : i + (j + 1) = i + 1 + j := by omega
      rwa [e] at this
    rw [runLoopAux_succ, iterBody_gen_fail qt (oracle i) _ h0]
    have hrec := ih (i + 1)
      { s with iterationsRun := s.iterationsRun + 1, genCalls := s.genCalls + 1 } hall'
    exact ⟨hrec.1, hrec.2.1, hrec.2.2⟩

/-- C2: the loop body of `create_flashcards` executes at most
`max_iterations` times, so at most `max_iterations` generate passes occur
before materialization. -/
theorem C2_iteration_bound (qt : ℚ) (maxIter : ℕ) (oracle : ℕ → IterOracle) :
    (runLoop qt maxIter oracle).1.genCalls ≤ maxIter ∧
    (runLoop qt maxIter oracle).1.iterationsRun ≤ maxIter := by
  have h := runLoopAux_counts qt oracle maxIter 0 initState
  simpa [runLoop, initState] using h

/-- An all-1.0 factor mapping over the ten weighted factor names. -/
def allOnesFactors : List (String × ℚ) := weights.map (fun fw => (fw.1, 1))

/-- An all-0.0 factor mapping over the ten weighted factor names. -/
def allZerosFactors : List (String × ℚ) := weights.map (fun fw => (fw.1, 0))

/-- Unfolding lemma: lookup on a non-empty association list. -/
theorem fget_cons (k' : String) (v : ℚ) (rest : List (String × ℚ)) (k : String) :
    fget ((k', v) :: rest) k = if k' == k then v else fget rest k := by
  unfold fget
  cases h : (k' == k) <;> simp [List.find?, h]

/-- Unfolding lemma: lookup on the empty association list. -/
theorem fget_nil (k : String) : fget ([] : List (String × ℚ)) k = 0 := rfl

/-- `factors.get(k, 0)` stays in `[0, 1]` when every stored score does. -/
theorem fget_mem_bounds (factors : List (String × ℚ))
    (h : ∀ p ∈ factors, 0 ≤ p.2 ∧ p.2 ≤ 1) (k : String) :
    0 ≤ fget factors k ∧ fget factors k ≤ 1 := by
  unfold fget
  cases hf : factors.find? (fun p => p.1 == k) with
  | none => exact ⟨le_refl 0, by norm_num⟩
  | some p => exact h p (List.mem_of_find?_eq_some hf)

/-- C3: the card-quality weight table sums to exactly 1 over its ten factor
names; the weighted aggregation gives exactly 10 on an all-1.0 factor set,
exactly 0 on an all-0.0 factor set, and lies in `[0, 10]` whenever every
stored factor score lies in `[0, 1]` (missing factors contribute 0). -/
theorem C3_weight_table :
    (weights.map Prod.snd).sum = 1 ∧
    cardQuality allOnesFactors = 10 ∧
    cardQuality allZerosFactors = 0 ∧
    (∀ factors : List (String × ℚ), (∀ p ∈ factors, 0 ≤ p.2 ∧ p.2 ≤ 1) →
      0 ≤ cardQuality factors ∧ cardQuality factors ≤ 10) := by
  refine ⟨?_, ?_, ?_, ?_⟩
  · simp only [weights, List.map_cons, List.map_nil, List.sum_cons, List.sum_nil]
    norm_num
  · simp only [cardQuality, allOnesFactors, weights, List.map_cons, List.map_nil,
      List.sum_cons, List.sum_nil, fget_cons, fget_nil]
    norm_num
  · simp only [cardQuality, allZerosFactors, weights, List.map_cons, List.map_nil,
      List.sum_cons, List.sum_nil, fget_cons, fget_nil]
    norm_num
  intro factors h
  obtain ⟨ha0, ha1⟩ := fget_mem_bounds factors h "conceptual_atomicity"
  obtain ⟨hb0, hb1⟩ := fget_mem_bounds factors h "conciseness"
  obtain ⟨hc0, hc1⟩ := fget_mem_bounds factors h "standalone_context"
  obtain ⟨hd0, hd1⟩ := fget_mem_bounds factors h "requires_specific_answer"
  obtain ⟨he0, he1⟩ := fget_mem_bounds factors h "no_hints"
  obtain ⟨hf0, hf1⟩ := fget_mem_bounds factors h "technical_precision"
  obtain ⟨hg0, hg1⟩ := fget_mem_bounds factors h "practical_value"
  obtain ⟨hh0, hh1⟩ := fget_mem_bounds factors h "bidirectional_design"
  obtain ⟨hi0, hi1⟩ := fget_mem_bounds factors h "uniqueness"
  obtain ⟨hj0, hj1⟩ := fget_mem_bounds factors h "design_rationale"
  constructor <;>
  · simp only [cardQuality, weights, List.map_cons, List.map_nil, List.sum_cons,
      List.sum_nil]
    linarith

/-- Witness for C3: the bound part evaluated on the all-1.0 factor set. -/
theorem C3_weight_table_witness :
    (∀ p ∈ allOnesFactors, 0 ≤ p.2 ∧ p.2 ≤ 1) ∧
    0 ≤ cardQuality allOnesFactors ∧ cardQuality allOnesFactors ≤ 10 :=
  ⟨by norm_num [allOnesFactors, weights],
    C3_weight_table.2.2.2 allOnesFactors (by norm_num [allOnesFactors, weights])⟩

/-- The four factor names with minimum-acceptable floors (lines 775-778). -/
def criticalFloorKeys : List String :=
  ["conceptual_atomicity", "conciseness", "standalone_context", "no_hints"]

/-- C4: the per-card floor check fails exactly when one of the four
critical factors is strictly below its floor — regardless of every other
factor — and a factor missing from the mapping reads as 0, which is below
every floor. -/
theorem C4_floor_check (factors : List (String × ℚ)) :
    (meetsFloor factors = false ↔
      (fget factors "conceptual_atomicity" < 9/10 ∨
       fget factors "conciseness" < 8/10 ∨
       fget factors "standalone_context" < 9/10 ∨
       fget factors "no_hints" < 9/10)) ∧
    (∀ k ∈ criticalFloorKeys, factors.find? (fun p => p.1 == k) = none →
      fget factors k = 0 ∧ meetsFloor factors = false) := by
  have hiff : meetsFloor factors = false ↔
      (fget factors "conceptual_atomicity" < 9/10 ∨
       fget factors "conciseness" < 8/10 ∨
       fget factors "standalone_context" < 9/10 ∨
       fget factors "no_hints" < 9/10) := by
    by_cases h1 : fget factors "conceptual_atomicity" < 9/10 <;>
      by_cases h2 : fget factors "conciseness" < 8/10 <;>
      by_cases h3 : fget factors "standalone_context" < 9/10 <;>
      by_cases h4 : fget factors "no_hints" < 9/10 <;>
      simp [meetsFloor, h1, h2, h3, h4]
  refine ⟨hiff, ?_⟩
  intro k hk hnone
  have hz : fget factors k = 0 := by
    unfold fget
    rw [hnone]
  refine ⟨hz, hiff.mpr ?_⟩
  have hk' : k = "conceptual_atomicity" ∨ k = "conciseness" ∨
      k = "standalone_context" ∨ k = "no_hints" := by
    simpa [criticalFloorKeys] using hk
  rcases hk' with rfl | rfl | rfl | rfl
  · exact Or.inl (by rw [hz]; norm_num)
  · exact Or.inr (Or.inl (by rw [hz]; norm_num))
  · exact Or.inr (Or.inr (Or.inl (by rw [hz]; norm_num)))
  · exact Or.inr (Or.inr (Or.inr (by rw [hz]; norm_num)))

/-- Witness for C4: a mapping with every factor 1.0 except atomicity 0.5
fails the floor, and a mapping missing `no_hints` reads it as 0 and fails. -/
theorem C4_floor_check_witness :
    meetsFloor [("conceptual_atomicity", (1:ℚ)/2), ("conciseness", 1),
      ("standalone_context", 1), ("no_hints", 1)] = false ∧
    fget [("conceptual_atomicity", (1:ℚ))] "no_hints" = 0 ∧
    meetsFloor [("conceptual_atomicity", (1:ℚ))] = false := by
  refine ⟨(C4_floor_check _).1.mpr (Or.inl (by norm_num [fget_cons, fget_nil])), ?_, ?_⟩
  · exact ((C4_floor_check _).2 "no_hints" (by decide) (by rfl)).1
  · exact ((C4_floor_check _).2 "no_hints" (by decide) (by rfl)).2

/-- C1: in any iteration whose generation parsed to a non-empty list and
whose assessment parsed, the loop takes the convergence `break` exactly when
`overall_score >= quality_threshold`, `critical_issues == 0` and every
per-card assessment passes the critical-factor floors; when those three
conditions hold on iteration 1, the loop exits `Converged` after exactly one
generate pass with the refine stage never called. -/
theorem C1_convergence (qt : ℚ) (oracle : ℕ → IterOracle) (gd : GenData) (a : Assessment)
    (hg : (oracle 0).gen = GenResult.ok gd) (hne : gd.flashcards ≠ [])
    (ha : (oracle 0).assess = AssessResult.ok a) :
    (∀ s : LoopState, (iterBody qt (oracle 0) s).2 = some ExitKind.converged ↔
      convergedCond qt a) ∧
    (convergedCond qt a → ∀ maxIter : ℕ, 1 ≤ maxIter →
      (runLoop qt maxIter oracle).2 = ExitKind.converged ∧
      (runLoop qt maxIter oracle).1.genCalls = 1 ∧
      (runLoop qt maxIter oracle).1.iterationsRun = 1 ∧
      (runLoop qt maxIter oracle).1.refineCalls = 0) := by
  constructor
  · intro s
    constructor
    · intro hbrk
      by_contra hnc
      cases hr : (oracle 0).refine with
      | fail =>
        rw [iterBody_refine_fail qt (oracle 0) s gd a hg hne ha hnc hr] at hbrk
        simp at hbrk
      | ok rd =>
        rw [iterBody_refine_ok qt (oracle 0) s gd rd a hg hne ha hnc hr] at hbrk
        simp at hbrk
    · intro hc
      rw [iterBody_converged qt (oracle 0) s gd a hg hne ha hc]
  · intro hc maxIter hm
    obtain ⟨m, rfl⟩ : ∃ m, maxIter = m + 1 := ⟨maxIter - 1, by omega⟩
    unfold runLoop
    rw [runLoopAux_succ, iterBody_converged qt (oracle 0) _ gd a hg hne ha hc]
    exact ⟨rfl, rfl, rfl, rfl⟩

/-- Concrete converging scenario for the C1 witness. -/
def w1Card : Card :=
  { question := "In MQTT, what does broker do?"
    answer := "Routes messages."
    concept := "MQTT"
    difficulty := some "beginner"
    quality_factors := [("conceptual_atomicity", 1), ("conciseness", 1),
      ("standalone_context", 1), ("no_hints", 1)] }

/-- Concrete passing assessment for the C1 witness. -/
def w1Assessment : Assessment :=
  { overall_score := 9
    critical_issues := 0
    assessments := [
      { card_index := 0
        quality_factors := [("conceptual_atomicity", 1), ("conciseness", 1),
          ("standalone_context", 1), ("no_hints", 1)]
        weighted_score := 9 }]
    improvement_priorities := [] }

/-- Scripted service outcomes for the C1 witness. -/
def w1Oracle : ℕ → IterOracle :=
  fun _ =>
    { gen := GenResult.ok { flashcards := [w1Card] }
      assess := AssessResult.ok w1Assessment
      refine := RefineResult.fail }

/-- Witness for C1: on a first-iteration passing assessment with threshold 8
the loop converges in one iteration without refining. -/
theorem C1_convergence_witness :
    (runLoop 8 3 w1Oracle).2 = ExitKind.converged ∧
    (runLoop 8 3 w1Oracle).1.genCalls = 1 ∧
    (runLoop 8 3 w1Oracle).1.iterationsRun = 1 ∧
    (runLoop 8 3 w1Oracle).1.refineCalls = 0 := by
  have hconv : convergedCond 8 w1Assessment := by
    refine ⟨by norm_num [w1Assessment], rfl, ?_⟩
    simp [w1Assessment, allFloorsMet, meetsFloor, fget_cons, fget_nil]
    norm_num
  exact (C1_convergence 8 w1Oracle { flashcards := [w1Card] } w1Assessment rfl
    (by simp) rfl).2 hconv 3 (by omega)

/-- C5: when the generation response fails to parse, or parses to an empty
candidate list, the iteration is abandoned: no assess or refine call happens,
the feedback string is unchanged, the (wasted) iteration is still consumed,
and the driver proceeds to the next iteration's generate. -/
theorem C5_generation_failure (qt : ℚ) (o : IterOracle) (s : LoopState)
    (h : o.gen = GenResult.fail ∨ ∃ gd, o.gen = GenResult.ok gd ∧ gd.flashcards = []) :
    (iterBody qt o s).2 = none ∧
    (iterBody qt o s).1.assessCalls = s.assessCalls ∧
    (iterBody qt o s).1.refineCalls = s.refineCalls ∧
    (iterBody qt o s).1.feedback = s.feedback ∧
    (iterBody qt o s).1.genCalls = s.genCalls + 1 ∧
    (∀ oracle : ℕ → IterOracle, ∀ n i, oracle i = o →
      runLoopAux qt oracle (n + 1) i s =
        runLoopAux qt oracle n (i + 1)
          (iterBody qt o { s with iterationsRun := s.iterationsRun + 1 }).1) := by
  have key : ∀ t : LoopState,
      iterBody qt o t = ({ t with genCalls := t.genCalls + 1 }, none) ∨
      ∃ gd, iterBody qt o t =
        ({ t with genCalls := t.genCalls + 1, flashcard_data := some gd }, none) := by
    intro t
    rcases h with h | ⟨gd, hgen, he⟩
    · exact Or.inl (iterBody_gen_fail qt o t h)
    · exact Or.inr ⟨gd, iterBody_gen_empty qt o t gd hgen he⟩
  have hdrive : ∀ (oracle : ℕ → IterOracle) (n i : ℕ), oracle i = o →
      runLoopAux qt oracle (n + 1) i s =
        runLoopAux qt oracle n (i + 1)
          (iterBody qt o { s with iterationsRun := s.iterationsRun + 1 }).1 := by
    intro oracle n i hoi
    rw [runLoopAux_succ, hoi]
    rcases key { s with iterationsRun := s.iterationsRun + 1 } with hk | ⟨gd, hk⟩ <;>
      rw [hk]
  rcases key s with hk | ⟨gd, hk⟩ <;>
    exact ⟨by rw [hk], by rw [hk], by rw [hk], by rw [hk], by rw [hk], hdrive⟩

/-- Scripted outcome for the C5 witness: generation parse failure. -/
def w5Oracle : IterOracle :=
  { gen := GenResult.fail, assess := AssessResult.fail, refine := RefineResult.fail }

/-- Witness for C5: a parse-failed generation from the initial state makes no
assess call and leaves the feedback string untouched. -/
theorem C5_generation_failure_witness :
    (iterBody 8 w5Oracle initState).2 = none ∧
    (iterBody 8 w5Oracle initState).1.assessCalls = initState.assessCalls ∧
    (iterBody 8 w5Oracle initState).1.feedback = initState.feedback := by
  have h := C5_generation_failure 8 w5Oracle initState (Or.inl rfl)
  exact ⟨h.1, h.2.1, h.2.2.2.1⟩

/-- C6: when the refinement response fails to parse after a non-converged
assessment, the loop stops immediately (one iteration regardless of the
remaining budget), the candidate list still holds the pre-refinement cards,
and materialization proceeds with that list. -/
theorem C6_refine_failure (qt : ℚ) (topic dd : String) (maxIter : ℕ)
    (oracle : ℕ → IterOracle) (gd : GenData) (a : Assessment)
    (hg : (oracle 0).gen = GenResult.ok gd) (hne : gd.flashcards ≠ [])
    (ha : (oracle 0).assess = AssessResult.ok a) (hnc : ¬ convergedCond qt a)
    (hr : (oracle 0).refine = RefineResult.fail) (hm : 1 ≤ maxIter) :
    (runLoop qt maxIter oracle).2 = ExitKind.refineFail ∧
    (runLoop qt maxIter oracle).1.iterationsRun = 1 ∧
    (runLoop qt maxIter oracle).1.flashcard_data = some gd ∧
    createFlashcards topic dd qt maxIter oracle =
      materialize topic dd a.overall_score (some gd) := by
  obtain ⟨m, rfl⟩ : ∃ m, maxIter = m + 1 := ⟨maxIter - 1, by omega⟩
  have hrun : runLoop qt (m + 1) oracle =
      ({ initState with
          iterationsRun := initState.iterationsRun + 1,
          genCalls := initState.genCalls + 1,
          flashcard_data := some gd,
          assessCalls := initState.assessCalls + 1,
          overall_score := a.overall_score,
          refineCalls := initState.refineCalls + 1 }, ExitKind.refineFail) := by
    unfold runLoop
    rw [runLoopAux_succ, iterBody_refine_fail qt (oracle 0) _ gd a hg hne ha hnc hr]
  refine ⟨by rw [hrun], by simp [hrun, initState], by rw [hrun], ?_⟩
  simp [createFlashcards, hrun]

/-- Concrete card for the C6 witness. -/
def w6Card : Card :=
  { question := "In MQTT, what does QoS 0 guarantee?"
    answer := "At most once delivery."
    concept := "MQTT QoS"
    difficulty := none
    quality_factors := [] }

/-- Concrete failing assessment for the C6 witness: overall score below the
threshold, so the loop does not converge and proceeds to refine. -/
def w6Assessment : Assessment :=
  { overall_score := 5
    critical_issues := 0
    assessments := []
    improvement_priorities := [] }

/-- Scripted outcomes for the C6 witness: generation ok, assessment parsed
but failing, refinement parse failure. -/
def w6Oracle : ℕ → IterOracle :=
  fun _ =>
    { gen := GenResult.ok { flashcards := [w6Card] }
      assess := AssessResult.ok w6Assessment
      refine := RefineResult.fail }

/-- Witness for C6: the refine-parse failure stops the loop with the
un-refined candidate list, which is what gets materialized. -/
theorem C6_refine_failure_witness :
    (runLoop 8 3 w6Oracle).2 = ExitKind.refineFail ∧
    (runLoop 8 3 w6Oracle).1.flashcard_data = some { flashcards := [w6Card] } ∧
    createFlashcards "Topic" "intermediate" 8 3 w6Oracle =
      materialize "Topic" "intermediate" w6Assessment.overall_score
        (some { flashcards := [w6Card] }) := by
  have hnc : ¬ convergedCond 8 w6Assessment := by
    rintro ⟨h1, -, -⟩
    norm_num [w6Assessment] at h1
  have h := C6_refine_failure 8 "Topic" "intermediate" 3 w6Oracle
    { flashcards := [w6Card] } w6Assessment rfl (by simp) rfl hnc rfl (by omega)
  exact ⟨h.1, h.2.2.1, h.2.2.2⟩

/-- Structure of the enumerate loop: one output per candidate, in order,
with positions shifted by the starting index. -/
theorem materializeAux_spec (topic dd : String) (overall : ℚ) :
    ∀ (cs : List Card) (j : ℕ),
      (materializeAux topic dd overall j cs).length = cs.length ∧
      ∀ i (hi : i < (materializeAux topic dd overall j cs).length)
        (hi' : i < cs.length),
        (materializeAux topic dd overall j cs).get ⟨i, hi⟩ =
          mkFlashcard topic dd overall (j + i) (cs.get ⟨i, hi'⟩) := by
  intro cs
  induction cs with
  | nil =>
    intro j
    exact ⟨rfl, fun i hi hi' => absurd hi' (Nat.not_lt_zero i)⟩
  | cons c rest ih =>
    intro j
    constructor
    · simpa [materializeAux] using (ih (j + 1)).1
    · intro i hi hi'
      cases i with
      | zero => simp [materializeAux]
      | succ i =>
        have hi2 : i < (materializeAux topic dd overall (j + 1) rest).length := by
          simp only [materializeAux, List.length_cons] at hi
          omega
        have hi2' : i < rest.length := by
          simp only [List.length_cons] at hi'
          omega
        have h2 := (ih (j + 1)).2 i hi2 hi2'
        have hstep :
            (materializeAux topic dd overall j (c :: rest)).get ⟨i + 1, hi⟩ =
              (materializeAux topic dd overall (j + 1) rest).get ⟨i, hi2⟩ := by
          simp [materializeAux]
        rw [hstep, h2, show j + 1 + i = j + (i + 1) by omega]
        simp

/-- C7: materialization yields exactly one flashcard per candidate, in the
candidate list's order (no filtering, no deduplication), and the card at
0-based index `i` gets id `<slugified topic>_<i+1 zero-padded to 3 digits>`. -/
theorem C7_materializer (topic dd : String) (overall : ℚ) (gd : GenData) :
    (materialize topic dd overall (some gd)).length = gd.flashcards.length ∧
    ∀ i (hi : i < (materialize topic dd overall (some gd)).length)
      (hi' : i < gd.flashcards.length),
      ((materialize topic dd overall (some gd)).get ⟨i, hi⟩).id =
        slugify topic ++ "_" ++ pad3 (i + 1) ∧
      ((materialize topic dd overall (some gd)).get ⟨i, hi⟩).question =
        (gd.flashcards.get ⟨i, hi'⟩).question ∧
      ((materialize topic dd overall (some gd)).get ⟨i, hi⟩).answer =
        (gd.flashcards.get ⟨i, hi'⟩).answer := by
  have h := materializeAux_spec topic dd overall gd.flashcards 0
  refine ⟨h.1, ?_⟩
  intro i hi hi'
  have h2 := h.2 i hi hi'
  refine ⟨?_, ?_, ?_⟩
  · show ((materializeAux topic dd overall 0 gd.flashcards).get ⟨i, hi⟩).id = _
    rw [h2]
    simp [mkFlashcard]
  · show ((materializeAux topic dd overall 0 gd.flashcards).get ⟨i, hi⟩).question = _
    rw [h2]
    rfl
  · show ((materializeAux topic dd overall 0 gd.flashcards).get ⟨i, hi⟩).answer = _
    rw [h2]
    rfl

/-- A plain candidate card used by the C7 witness. -/
def w7Card (q : String) : Card :=
  { question := q
    answer := "A"
    concept := "C"
    difficulty := none
    quality_factors := [] }

/-- A five-card candidate list for the C7 witness. -/
def w7Data : GenData :=
  { flashcards := [w7Card "q1", w7Card "q2", w7Card "q3", w7Card "q4", w7Card "q5"] }

/-- Witness for C7: on a fixed 5-card list with topic "Azure OpenAI", the
output has 5 cards and ids `azure_openai_001` … `azure_openai_005`. -/
theorem C7_materializer_witness :
    (materialize "Azure OpenAI" "intermediate" 0 (some w7Data)).length =
      w7Data.flashcards.length ∧
    ((materialize "Azure OpenAI" "intermediate" 0 (some w7Data)).get? 0).map
      (fun fc => fc.id) = some "azure_openai_001" ∧
    ((materialize "Azure OpenAI" "intermediate" 0 (some w7Data)).get? 4).map
      (fun fc => fc.id) = some "azure_openai_005" := by
  have h := C7_materializer "Azure OpenAI" "intermediate" 0 w7Data
  have hlen : (materialize "Azure OpenAI" "intermediate" 0 (some w7Data)).length = 5 := by
    rw [h.1]
    rfl
  have hb0 : (0:ℕ) < (materialize "Azure OpenAI" "intermediate" 0 (some w7Data)).length := by
    omega
  have hb4 : (4:ℕ) < (materialize "Azure OpenAI" "intermediate" 0 (some w7Data)).length := by
    omega
  have h0 := (h.2 0 hb0 (by rw [← h.1]; exact hb0)).1
  have h4 := (h.2 4 hb4 (by rw [← h.1]; exact hb4)).1
  refine ⟨h.1, ?_, ?_⟩
  · rw [List.get?_eq_get hb0]
    simp only [Option.map_some']
    rw [h0]
    rfl
  · rw [List.get?_eq_get hb4]
    simp only [Option.map_some']
    rw [h4]
    rfl

/-- C8 (amended): after a successful refinement parse the rewritten list
replaces the candidate list and the body continues; the next feedback string
is the fixed prefix "Focus on: " followed by the assessment's top-2
improvement priorities joined by "; " when any exist, and the fixed generic
fallback string when the priority list is empty. -/
theorem C8_refine_success (qt : ℚ) (o : IterOracle) (s : LoopState)
    (gd rd : GenData) (a : Assessment)
    (hg : o.gen = GenResult.ok gd) (hne : gd.flashcards ≠ [])
    (ha : o.assess = AssessResult.ok a) (hnc : ¬ convergedCond qt a)
    (hr : o.refine = RefineResult.ok rd) :
    (iterBody qt o s).2 = none ∧
    (iterBody qt o s).1.flashcard_data = some rd ∧
    (iterBody qt o s).1.feedback =
      (if a.improvement_priorities.isEmpty then fallbackFeedback
       else "Focus on: " ++ String.intercalate "; " (a.improvement_priorities.take 2)) := by
  rw [iterBody_refine_ok qt o s gd rd a hg hne ha hnc hr]
  exact ⟨rfl, rfl, rfl⟩

/-- A plain candidate card used by the C8 data. -/
def w8Card : Card :=
  { question := "In Azure, what does a queue trigger do?"
    answer := "Starts function on queue message."
    concept := "Azure Functions"
    difficulty := none
    quality_factors := [] }

/-- A parsed, non-converging assessment with three improvement priorities. -/
def w8Assessment : Assessment :=
  { overall_score := 5
    critical_issues := 0
    assessments := []
    improvement_priorities := ["sharper questions", "shorter answers", "more context"] }

/-- Scripted outcomes for C8: generation ok, assessment parsed and failing,
refinement parse success. -/
def w8Oracle : IterOracle :=
  { gen := GenResult.ok { flashcards := [w8Card] }
    assess := AssessResult.ok w8Assessment
    refine := RefineResult.ok { flashcards := [w8Card] } }

/-- Counterexample to C8 as stated: at a concrete successful refinement with
priorities present, the next feedback string is NOT the bare top-2
priorities joined by "; " — the code prefixes it with "Focus on: ". -/
theorem C8_feedback_counterexample :
    (iterBody 8 w8Oracle initState).1.feedback =
      "Focus on: sharper questions; shorter answers" ∧
    (iterBody 8 w8Oracle initState).1.feedback ≠
      String.intercalate "; " (w8Assessment.improvement_priorities.take 2) := by
  have hnc : ¬ convergedCond 8 w8Assessment := by
    rintro ⟨h1, -, -⟩
    norm_num [w8Assessment] at h1
  have h := iterBody_refine_ok 8 w8Oracle initState { flashcards := [w8Card] }
    { flashcards := [w8Card] } w8Assessment rfl (by simp) rfl hnc rfl
  rw [h]
  exact ⟨rfl, by decide⟩

/-- Witness for C8 (amended) at the same concrete refinement scenario. -/
theorem C8_refine_success_witness :
    (iterBody 8 w8Oracle initState).2 = none ∧
    (iterBody 8 w8Oracle initState).1.flashcard_data =
      some { flashcards := [w8Card] } ∧
    (iterBody 8 w8Oracle initState).1.feedback =
      "Focus on: sharper questions; shorter answers" := by
  have hnc : ¬ convergedCond 8 w8Assessment := by
    rintro ⟨h1, -, -⟩
    norm_num [w8Assessment] at h1
  have h := C8_refine_success 8 w8Oracle initState { flashcards := [w8Card] }
    { flashcards := [w8Card] } w8Assessment rfl (by simp) rfl hnc rfl
  refine ⟨h.1, h.2.1, ?_⟩
  rw [h.2.2]
  rfl

/-- C9: if generation output fails structured parsing on every iteration,
the loop exhausts its budget with `flashcard_data` still `None`, and
materialization returns the empty flashcard list rather than raising. -/
theorem C9_all_generation_failures (topic dd : String) (qt : ℚ) (maxIter : ℕ)
    (oracle : ℕ → IterOracle)
    (h : ∀ j, j < maxIter → (oracle j).gen = GenResult.fail) :
    (runLoop qt maxIter oracle).1.flashcard_data = none ∧
    (runLoop qt maxIter oracle).2 = ExitKind.budget ∧
    createFlashcards topic dd qt maxIter oracle = [] := by
  have h0 : ∀ j, j < maxIter → (oracle (0 + j)).gen = GenResult.fail := by
    intro j hj
    simpa using h j hj
  have hrec := runLoopAux_gen_fail_all qt oracle maxIter 0 initState h0
  refine ⟨hrec.1, hrec.2.2, ?_⟩
  unfold createFlashcards runLoop
  rw [hrec.1]
  rfl

/-- All-failing scripted outcomes for the C9 witness. -/
def w9Oracle : ℕ → IterOracle :=
  fun _ => { gen := GenResult.fail, assess := AssessResult.fail, refine := RefineResult.fail }

/-- Witness for C9: three parse-failed generations yield zero flashcards. -/
theorem C9_all_generation_failures_witness :
    createFlashcards "Topic" "intermediate" 8 3 w9Oracle = [] ∧
    (runLoop 8 3 w9Oracle).1.flashcard_data = none :=
  ⟨(C9_all_generation_failures "Topic" "intermediate" 8 3 w9Oracle (fun _ _ => rfl)).2.2,
   (C9_all_generation_failures "Topic" "intermediate" 8 3 w9Oracle (fun _ _ => rfl)).1⟩

/-- C10: a successfully parsed assessment whose per-card `assessments` list
is empty passes the floor check vacuously, so the iteration takes the
convergence break exactly when `overall_score >= quality_threshold` and
`critical_issues == 0`, with no card's factors ever checked. -/
theorem C10_empty_assessments (qt : ℚ) (o : IterOracle) (s : LoopState)
    (gd : GenData) (a : Assessment)
    (hg : o.gen = GenResult.ok gd) (hne : gd.flashcards ≠ [])
    (ha : o.assess = AssessResult.ok a) (hempty : a.assessments = []) :
    allFloorsMet a = true ∧
    ((iterBody qt o s).2 = some ExitKind.converged ↔
      (qt ≤ a.overall_score ∧ a.critical_issues = 0)) := by
  have hfl : allFloorsMet a = true := by
    simp [allFloorsMet, hempty]
  refine ⟨hfl, ?_, ?_⟩
  · intro hbrk
    by_cases hc : convergedCond qt a
    · exact ⟨hc.1, hc.2.1⟩
    · cases hr : o.refine with
      | fail =>
        rw [iterBody_refine_fail qt o s gd a hg hne ha hc hr] at hbrk
        simp at hbrk
      | ok rd =>
        rw [iterBody_refine_ok qt o s gd rd a hg hne ha hc hr] at hbrk
        simp at hbrk
  · rintro ⟨h1, h2⟩
    rw [iterBody_converged qt o s gd a hg hne ha ⟨h1, h2, hfl⟩]

/-- A plain candidate card used by the C10 witness. -/
def w10Card : Card :=
  { question := "In Kafka, what does a partition provide?"
    answer := "Ordered append-only log segment."
    concept := "Kafka"
    difficulty := none
    quality_factors := [] }

/-- A passing assessment with an empty per-card assessments list. -/
def w10Assessment : Assessment :=
  { overall_score := 9
    critical_issues := 0
    assessments := []
    improvement_priorities := [] }

/-- Scripted outcomes for the C10 witness. -/
def w10Oracle : IterOracle :=
  { gen := GenResult.ok { flashcards := [w10Card] }
    assess := AssessResult.ok w10Assessment
    refine := RefineResult.fail }

/-- Witness for C10: with an empty assessments list, score 9 ≥ 8, and zero
critical issues, the iteration converges without any floor being checked. -/
theorem C10_empty_assessments_witness :
    allFloorsMet w10Assessment = true ∧
    (iterBody 8 w10Oracle initState).2 = some ExitKind.converged := by
  have h := C10_empty_assessments 8 w10Oracle initState { flashcards := [w10Card] }
    w10Assessment rfl (by simp) rfl rfl
  exact ⟨h.1, h.2.mpr ⟨by norm_num [w10Assessment], rfl⟩⟩

end FlashcardGen
